import Mathlib

/-!
Verification development for the secondary-indexing repository:
the projector admin client's retry wrapper, the KV data path
(scatter loop over vbucket routines), and the index placement
planner (transfer tokens, index-spec expansion, plan persistence,
index-definition equivalence).

Each definition is a shallow embedding of the corresponding Go
function; definitions whose Go source is outside the excerpt are
marked `Modelled from the spec:` in their doc comment.
-/

/-! ## Admin client: withRetry (client.go) -/

/-- Substring containment, the meaning of Go `strings.Contains(s, sub)`. -/
def strContains (s sub : String) : Bool := decide (sub.data <:+: s.data)

/-- Result of one call to the wrapped function `fn`: either success
(`err == nil`) or an error carrying its message string. -/
inductive CallResult where
  | ok : CallResult
  | fail (msg : String) : CallResult
deriving DecidableEq

/-- Two's-complement wrapping of a mathematical integer into the range
of a 64-bit Go `int`: the result is congruent to `n` mod `2^64` and
lies in `[-2^63, 2^63)`.  Go integer arithmetic wraps on overflow, so
this is the meaning of `interval *= client.expBackoff`. -/
def wrap64 (n : Int) : Int := (n + 2 ^ 63) % 2 ^ 64 - 2 ^ 63

/-- Shallow embedding of `(client *Client) withRetry(fn)` from client.go.

`calls` lists the results of the successive calls to `fn` (head is the
first call).  `interval` and `maxRetries` are the loop's mutable local
Go `int`s (64-bit), initialised from `client.retryInterval` /
`client.maxRetries`; `expBackoff` is `client.expBackoff`.  The
multiplication `interval *= expBackoff` wraps like Go `int` arithmetic
(`wrap64`); the decrement `maxRetries--` runs only under
`maxRetries > 0` and cannot wrap.  The result is `none` when the loop
is still running after consuming every provided call result (it would
call `fn` again), and `some (err?, sleeps)` when the loop returns,
where `err?` is the returned error (`none` for success) and `sleeps`
records, in order, the value of `interval` (milliseconds) at each
`time.Sleep` call. -/
def withRetry (expBackoff : Int) :
    List CallResult → Int → Int → Option (Option String × List Int)
  | [], _, _ => none
  | .ok :: _, _, _ => some (none, [])
  | .fail msg :: rest, interval, maxRetries =>
    if strContains msg "connection refused" = false then some (some msg, [])
    else if interval ≤ 0 then some (some msg, [])
    else
      let maxRetries' := if maxRetries > 0 then maxRetries - 1 else maxRetries
      if maxRetries > 0 ∧ maxRetries' = 0 then some (some msg, [])
      else
        let interval' := if expBackoff > 0 then wrap64 (interval * expBackoff)
          else interval
        match withRetry expBackoff rest interval' maxRetries' with
        | none => none
        | some (res, sleeps) => some (res, interval :: sleeps)

/-- A call result that is an error whose message contains
"connection refused". -/
def connRefusedFail : CallResult → Bool
  | .ok => false
  | .fail msg => strContains msg "connection refused"

theorem wrap64_eq_self {n : Int} (h1 : -2 ^ 63 ≤ n) (h2 : n < 2 ^ 63) :
    wrap64 n = n := by
  unfold wrap64
  omega

theorem withRetry_non_connrefused (eb : Int) (msg : String) (rest : List CallResult)
    (iv mr : Int) (h : strContains msg "connection refused" = false) :
    withRetry eb (.fail msg :: rest) iv mr = some (some msg, []) := by
  simp [withRetry, h]

theorem withRetry_zero_interval (eb : Int) (msg : String) (rest : List CallResult)
    (mr : Int) : withRetry eb (.fail msg :: rest) 0 mr = some (some msg, []) := by
  by_cases h : strContains msg "connection refused" = false <;>
    simp [withRetry, h]

theorem withRetry_step_last (eb : Int) (msg : String) (rest : List CallResult)
    (iv : Int) (hcr : strContains msg "connection refused" = true)
    (hiv : 0 < iv) :
    withRetry eb (.fail msg :: rest) iv 1 = some (some msg, []) := by
  have h1 : ((1 : Int) > 0 ∧ (if (1 : Int) > 0 then (1 : Int) - 1 else 1) = 0) := by
    norm_num
  simp only [withRetry, hcr]
  rw [if_neg (by simp), if_neg (by omega), if_pos h1]

theorem withRetry_step_retry (eb : Int) (msg : String) (rest : List CallResult)
    (iv mr : Int) (out : Option String) (sleeps : List Int)
    (hcr : strContains msg "connection refused" = true)
    (hiv : 0 < iv) (hmr : ¬ (mr > 0 ∧ mr - 1 = 0))
    (hrec : withRetry eb rest (if eb > 0 then wrap64 (iv * eb) else iv)
      (if mr > 0 then mr - 1 else mr) = some (out, sleeps)) :
    withRetry eb (.fail msg :: rest) iv mr = some (out, iv :: sleeps) := by
  have hcond : ¬ (mr > 0 ∧ (if mr > 0 then mr - 1 else mr) = 0) := by
    by_cases h : mr > 0 <;> simp [h] <;> omega
  simp only [withRetry, hcr]
  rw [if_neg (by simp), if_neg (by omega), if_neg hcond, hrec]

theorem withRetry_step_retry_none (eb : Int) (msg : String) (rest : List CallResult)
    (iv mr : Int) (hcr : strContains msg "connection refused" = true)
    (hiv : 0 < iv) (hmr : ¬ (mr > 0 ∧ mr - 1 = 0))
    (hrec : withRetry eb rest (if eb > 0 then wrap64 (iv * eb) else iv)
      (if mr > 0 then mr - 1 else mr) = none) :
    withRetry eb (.fail msg :: rest) iv mr = none := by
  have hcond : ¬ (mr > 0 ∧ (if mr > 0 then mr - 1 else mr) = 0) := by
    by_cases h : mr > 0 <;> simp [h] <;> omega
  simp only [withRetry, hcr]
  rw [if_neg (by simp), if_neg (by omega), if_neg hcond, hrec]

theorem withRetry_indefinite_of_no_growth (eb iv : Int) (heb : eb ≤ 1)
    (hiv : 0 < iv) (hiv2 : iv < 2 ^ 63) :
    ∀ calls : List CallResult, (∀ c ∈ calls, connRefusedFail c = true) →
      withRetry eb calls iv 0 = none := by
  intro calls
  induction calls with
  | nil => intro _; rfl
  | cons c rest ih =>
    intro hall
    have hc := hall c (List.mem_cons_self c rest)
    match c with
    | .ok => simp [connRefusedFail] at hc
    | .fail msg =>
      have hcr : strContains msg "connection refused" = true := hc
      have hiv' : (if eb > 0 then wrap64 (iv * eb) else iv) = iv := by
        by_cases heb0 : eb > 0
        · have heb1 : eb = 1 := by omega
          rw [if_pos heb0, heb1, mul_one, wrap64_eq_self (by omega) hiv2]
        · rw [if_neg heb0]
      have hrest : withRetry eb rest (if eb > 0 then wrap64 (iv * eb) else iv)
          (if (0 : Int) > 0 then (0 : Int) - 1 else 0) = none := by
        rw [hiv']
        simpa using ih (fun c hcm => hall c (List.mem_cons_of_mem _ hcm))
      exact withRetry_step_retry_none eb msg rest iv 0 hcr hiv (by omega) hrest

theorem withRetry_maxRetries_geometric (eb : Int) (heb : 0 < eb) (msg : String)
    (hcr : strContains msg "connection refused" = true) :
    ∀ (m : ℕ) (iv : Int), 0 < iv → 0 < m → iv * eb ^ (m - 1) < 2 ^ 63 →
      ∀ calls : List CallResult, m ≤ calls.length →
      (∀ c ∈ calls, c = .fail msg) →
      withRetry eb calls iv (m : Int) =
        some (some msg, (List.range (m - 1)).map (fun j => iv * eb ^ j)) := by
  intro m
  induction m with
  | zero => intro iv _ h; omega
  | succ m ih =>
    intro iv hiv _ hbound calls hlen hall
    match calls with
    | [] => simp at hlen
    | c :: rest =>
      have hc : c = .fail msg := hall c (List.mem_cons_self c rest)
      subst hc
      by_cases hm0 : m = 0
      · subst hm0
        simpa using withRetry_step_last eb msg rest iv hcr hiv
      · have hmpos : 0 < m := Nat.pos_of_ne_zero hm0
        have hbound' : iv * eb ^ m < 2 ^ 63 := by
          simpa [Nat.add_sub_cancel] using hbound
        have hebm : eb ≤ eb ^ m := by
          calc eb = eb ^ 1 := (pow_one eb).symm
            _ ≤ eb ^ m := pow_le_pow_right (by omega) hmpos
        have hge : iv * eb ≤ iv * eb ^ m :=
          mul_le_mul_of_nonneg_left hebm (le_of_lt hiv)
        have hivb : 0 < iv * eb := by positivity
        have hwrap : wrap64 (iv * eb) = iv * eb :=
          wrap64_eq_self (by omega) (by omega)
        have hbih : iv * eb * eb ^ (m - 1) < 2 ^ 63 := by
          have hm1 : m - 1 + 1 = m := by omega
          have heq : iv * eb * eb ^ (m - 1) = iv * eb ^ m := by
            conv_rhs => rw [← hm1]
            rw [pow_succ]
            ring
          omega
        have hmr' : (if ((m + 1 : ℕ) : Int) > 0 then ((m + 1 : ℕ) : Int) - 1
            else ((m + 1 : ℕ) : Int)) = (m : Int) := by
          rw [if_pos (by push_cast; omega)]
          push_cast
          ring
        have hrest : withRetry eb rest (iv * eb) (m : Int) =
            some (some msg, (List.range (m - 1)).map (fun j => iv * eb * eb ^ j)) :=
          ih (iv * eb) hivb hmpos hbih rest
            (by simpa using hlen)
            (fun c hcm => hall c (List.mem_cons_of_mem _ hcm))
        have hrec : withRetry eb rest (if eb > 0 then wrap64 (iv * eb) else iv)
            (if ((m + 1 : ℕ) : Int) > 0 then ((m + 1 : ℕ) : Int) - 1
              else ((m + 1 : ℕ) : Int)) =
            some (some msg, (List.range (m - 1)).map (fun j => iv * eb * eb ^ j)) := by
          rw [hmr', if_pos heb, hwrap, hrest]
        have hstep := withRetry_step_retry eb msg rest iv ((m + 1 : ℕ) : Int)
          (some msg) ((List.range (m - 1)).map (fun j => iv * eb * eb ^ j))
          hcr hiv (by push_cast; omega) hrec
        rw [hstep]
        have hrange : iv :: (List.range (m - 1)).map (fun j => iv * eb * eb ^ j) =
            (List.range (m + 1 - 1)).map (fun j => iv * eb ^ j) := by
          have hidx : m + 1 - 1 = m := by omega
          rw [hidx]
          obtain ⟨m', rfl⟩ : ∃ m', m = m' + 1 := ⟨m - 1, by omega⟩
          have hidx2 : m' + 1 - 1 = m' := by omega
          have hfun : ((fun j : ℕ => iv * eb ^ j) ∘ Nat.succ) =
              (fun j : ℕ => iv * eb * eb ^ j) := by
            funext j
            simp only [Function.comp, pow_succ]
            ring
          rw [hidx2, List.range_succ_eq_map, List.map_cons, List.map_map, hfun]
          simp
        rw [hrange]

theorem withRetry_bounded (eb : Int) :
    ∀ (calls : List CallResult) (iv : Int) (m : ℕ), 0 < m → m ≤ calls.length →
      ∃ out sleeps, withRetry eb calls iv (m : Int) = some (out, sleeps) ∧
        sleeps.length + 1 ≤ m := by
  intro calls
  induction calls with
  | nil =>
    intro iv m hm hlen
    rw [List.length_nil] at hlen
    omega
  | cons c rest ih =>
    intro iv m hm hlen
    rw [List.length_cons] at hlen
    match c with
    | .ok => exact ⟨none, [], rfl, by simpa using hm⟩
    | .fail msg =>
      by_cases hcr : strContains msg "connection refused" = false
      · exact ⟨some msg, [], by simp [withRetry, hcr], by simpa using hm⟩
      · have hcr' : strContains msg "connection refused" = true := by
          simpa using hcr
        by_cases hiv : iv ≤ 0
        · refine ⟨some msg, [], ?_, by simpa using hm⟩
          simp only [withRetry, hcr']
          rw [if_neg (by simp), if_pos hiv]
        · have hivpos : 0 < iv := by omega
          by_cases hm1 : m = 1
          · subst hm1
            exact ⟨some msg, [], withRetry_step_last eb msg rest iv hcr' hivpos,
              by simp⟩
          · have hm2 : 2 ≤ m := by omega
            obtain ⟨out, sleeps, hrun, hb⟩ :=
              ih (if eb > 0 then wrap64 (iv * eb) else iv) (m - 1) (by omega)
                (by omega)
            have hmr' : (if (m : Int) > 0 then (m : Int) - 1 else (m : Int)) =
                ((m - 1 : ℕ) : Int) := by
              rw [if_pos (by omega)]
              omega
            have hrec : withRetry eb rest (if eb > 0 then wrap64 (iv * eb) else iv)
                (if (m : Int) > 0 then (m : Int) - 1 else (m : Int)) =
                some (out, sleeps) := by rw [hmr', hrun]
            exact ⟨out, iv :: sleeps,
              withRetry_step_retry eb msg rest iv (m : Int) out sleeps hcr' hivpos
                (by omega) hrec,
              by simp only [List.length_cons]; omega⟩

/-- C1 counterexample: with `maxRetries = 0` the wrapper does NOT retry
indefinitely when `expBackoff ≥ 2`.  Starting from `interval = 100`
with `expBackoff = 2`, the Go `int` doubles each retry and wraps: at
the 58th attempt `interval = wrap64(100·2^57) < 0`, the
`interval <= 0` branch fires, and the wrapper returns the
connection-refused error after exactly 58 attempts (57 sleeps). -/
theorem c1_withRetry_indefinite_counterexample :
    (withRetry 2 (List.replicate 58 (.fail "connection refused")) 100 0).map
      (fun r => (r.1, r.2.length)) = some (some "connection refused", 57) := by
  decide

/-- C1 (amended): for every call made through the admin client's retry
wrapper: an error whose message does not indicate connection-refused is
returned to the caller immediately without any retry (no sleeps); with
a connection-refused error, `retryInterval = 0` disables retry
entirely; when `maxRetries = 0` the client retries indefinitely as long
as the 64-bit wrapping `interval` stays positive — in particular
whenever `expBackoff ≤ 1` (with `expBackoff ≥ 2` the doubling interval
eventually wraps non-positive and the wrapper returns, per the
counterexample); when `maxRetries > 0` it makes at most `maxRetries`
attempts in total; and with `expBackoff > 0` it sleeps `interval`
milliseconds between attempts, multiplying the interval by `expBackoff`
after each retry, so as long as no multiplication overflows int64
(`iv·eb^(m-1) < 2^63`) an all-failing run of `m` attempts sleeps the
geometric sequence `iv, iv·eb, ..., iv·eb^(m-2)`. -/
theorem c1_withRetry_contract_amended :
    (∀ (eb : Int) (msg : String) (rest : List CallResult) (iv mr : Int),
        strContains msg "connection refused" = false →
        withRetry eb (.fail msg :: rest) iv mr = some (some msg, [])) ∧
    (∀ (eb : Int) (msg : String) (rest : List CallResult) (mr : Int),
        withRetry eb (.fail msg :: rest) 0 mr = some (some msg, [])) ∧
    (∀ (eb iv : Int), eb ≤ 1 → 0 < iv → iv < 2 ^ 63 →
        ∀ calls : List CallResult,
        (∀ c ∈ calls, connRefusedFail c = true) →
        withRetry eb calls iv 0 = none) ∧
    (∀ (eb : Int) (calls : List CallResult) (iv : Int) (m : ℕ),
        0 < m → m ≤ calls.length →
        ∃ out sleeps, withRetry eb calls iv (m : Int) = some (out, sleeps) ∧
          sleeps.length + 1 ≤ m) ∧
    (∀ (eb iv : Int), 0 < eb → 0 < iv → ∀ (m : ℕ), 0 < m →
        iv * eb ^ (m - 1) < 2 ^ 63 → ∀ (msg : String),
        strContains msg "connection refused" = true →
        ∀ calls : List CallResult, m ≤ calls.length →
        (∀ c ∈ calls, c = .fail msg) →
        withRetry eb calls iv (m : Int) =
          some (some msg, (List.range (m - 1)).map (fun j => iv * eb ^ j))) :=
  ⟨withRetry_non_connrefused, withRetry_zero_interval,
   fun eb iv heb hiv hiv2 => withRetry_indefinite_of_no_growth eb iv heb hiv hiv2,
   withRetry_bounded,
   fun eb iv heb hiv m hm hbound msg hcr =>
     withRetry_maxRetries_geometric eb heb msg hcr m iv hiv hm hbound⟩

/-- Witness for the amended C1: with `retryInterval = 100`,
`expBackoff = 2`, `maxRetries = 3` (well inside the no-overflow bound)
and every call failing with connection-refused, the wrapper makes 3
attempts and sleeps 100 then 200 milliseconds. -/
theorem c1_withRetry_contract_amended_witness :
    withRetry 2 (List.replicate 5 (.fail "connection refused")) 100 ((3 : ℕ) : Int) =
      some (some "connection refused",
        (List.range (3 - 1)).map (fun j => (100 : Int) * 2 ^ j)) :=
  c1_withRetry_contract_amended.2.2.2.2 2 100 (by decide) (by decide) 3 (by decide)
    (by decide) "connection refused" (by decide)
    (List.replicate 5 (.fail "connection refused")) (by decide) (by decide)

/-! ## Index definitions and IsEquivalentIndex (proxy.go, package common) -/

/-- Go `common.IndexType` (a named string type). -/
abbrev IndexType := String

/-- Go `common.ExprType` (a named string type). -/
abbrev ExprType := String

/-- Go `common.PartitionScheme` (a named string type). -/
abbrev PartitionScheme := String

/-- Shallow embedding of `common.IndexDefn` from proxy.go.  Field
defaults are the Go zero values, so `{}` is the Go `common.IndexDefn{}`
zero struct.  `DefnId` and ids are modelled as `Nat`. -/
structure IndexDefn where
  DefnId : Nat := 0
  Name : String := ""
  Using : IndexType := ""
  Bucket : String := ""
  BucketUUID : String := ""
  IsPrimary : Bool := false
  SecExprs : List String := []
  ExprType : ExprType := ""
  PartitionScheme : PartitionScheme := ""
  PartitionKey : String := ""
  WhereExpr : String := ""
  Deferred : Bool := false
  Immutable : Bool := false
  Nodes : List String := []
  IsArrayIndex : Bool := false
deriving DecidableEq, Inhabited

/-- Shallow embedding of `common.IsEquivalentIndex(d1, d2)` from
proxy.go.  The first comparison is written `d1.Using != d1.Using`
exactly as in the source, and the secondary-expression check is the
source's nested loop over all pairs. -/
def IsEquivalentIndex (d1 d2 : IndexDefn) : Bool :=
  if d1.Using != d1.Using ||
     d1.Bucket != d2.Bucket ||
     d1.IsPrimary != d2.IsPrimary ||
     d1.ExprType != d2.ExprType ||
     d1.PartitionScheme != d2.PartitionScheme ||
     d1.PartitionKey != d2.PartitionKey ||
     d1.WhereExpr != d2.WhereExpr then
    false
  else
    d1.SecExprs.all fun s1 => d2.SecExprs.all fun s2 => s1 == s2

/-- C9: the result of `IsEquivalentIndex(d1, d2)` does not depend on
`d2.Using`: the `Using` comparison tests `d1.Using` against itself, so
replacing `d2.Using` by any value `u` leaves the result unchanged. -/
theorem c9_isEquivalentIndex_ignores_d2_using (d1 d2 : IndexDefn) (u : IndexType) :
    IsEquivalentIndex d1 d2 = IsEquivalentIndex d1 { d2 with Using := u } := rfl

/-- C10 counterexample: `IsEquivalentIndex` is NOT reflexive on a
definition whose `SecExprs` holds two distinct expressions.  With
`SecExprs = ["a", "b"]` the nested loop compares the pair
`("a", "b")` and returns `false`, so `IsEquivalentIndex(d, d) = false`,
refuting the claim that reflexivity holds for such definitions. -/
theorem c10_isEquivalentIndex_not_reflexive :
    IsEquivalentIndex { SecExprs := ["a", "b"] } { SecExprs := ["a", "b"] } = false := by
  decide

/-- C10 (amended): `IsEquivalentIndex(d, d) = true` for every
definition `d` whose `SecExprs` entries are pairwise equal (in
particular whenever `SecExprs` has at most one entry); when `SecExprs`
contains two distinct expressions the nested all-pairs loop rejects
`d` against itself. -/
theorem c10_isEquivalentIndex_reflexive_of_const_secExprs (d : IndexDefn)
    (h : ∀ s1 ∈ d.SecExprs, ∀ s2 ∈ d.SecExprs, s1 = s2) :
    IsEquivalentIndex d d = true := by
  have hall : (d.SecExprs.all fun s1 => d.SecExprs.all fun s2 => s1 == s2) = true := by
    simp only [List.all_eq_true]
    intro s1 h1 s2 h2
    exact beq_iff_eq.mpr (h s1 h1 s2 h2)
  simp [IsEquivalentIndex, hall]

/-- Witness for the amended C10 at a one-expression definition. -/
theorem c10_isEquivalentIndex_reflexive_witness :
    IsEquivalentIndex { SecExprs := ["a"] } { SecExprs := ["a"] } = true :=
  c10_isEquivalentIndex_reflexive_of_const_secExprs { SecExprs := ["a"] } (by decide)

/-! ## KV data path: command messages (client.go, package projector) -/

/-- Capacity of the KVData server channel `sbch`:
`make(chan []interface{}, 16)` in `NewKVData`. -/
def sbchCapacity : Nat := 16

/-- Command byte `kvCmdAddEngines` (`iota + 1`). -/
def kvCmdAddEngines : Nat := 1

/-- Command byte `kvCmdDelEngines`. -/
def kvCmdDelEngines : Nat := 2

/-- Command byte `kvCmdTs`. -/
def kvCmdTs : Nat := 3

/-- Command byte `kvCmdGetStats`. -/
def kvCmdGetStats : Nat := 4

/-- Command byte `kvCmdClose`. -/
def kvCmdClose : Nat := 5

/-- The five synchronous KVData control commands. -/
inductive KVCmdName where
  | addEngines
  | delEngines
  | updateTs
  | getStats
  | close
deriving DecidableEq

/-- One element of a `[]interface{}` command message: the command byte,
an argument payload, or the caller's reply channel `respch`. -/
inductive MsgElem where
  | cmdB (b : Nat)
  | enginesArg
  | endpointsArg
  | engineKeysArg
  | tsArg
  | respch
deriving DecidableEq

/-- The command message each caller builds and sends on `sbch`,
element for element as in `AddEngines`, `DeleteEngines`, `UpdateTs`,
`GetStatistics` and `Close` in client.go.  Note that `UpdateTs` builds
`cmd := []interface{}{kvCmdTs, ts}` WITHOUT the reply channel. -/
def cmdMessage : KVCmdName → List MsgElem
  | .addEngines => [.cmdB kvCmdAddEngines, .enginesArg, .endpointsArg, .respch]
  | .delEngines => [.cmdB kvCmdDelEngines, .engineKeysArg, .respch]
  | .updateTs => [.cmdB kvCmdTs, .tsArg]
  | .getStats => [.cmdB kvCmdGetStats, .respch]
  | .close => [.cmdB kvCmdClose, .respch]

/-- The index at which the serial handler in `runScatter` reads the
reply channel out of the message: `msg[3]` for AddEngines, `msg[2]`
for DeleteEngines and UpdateTs, `msg[1]` for GetStatistics and Close. -/
def handlerRespchIndex : KVCmdName → Nat
  | .addEngines => 3
  | .delEngines => 2
  | .updateTs => 2
  | .getStats => 1
  | .close => 1

/-- Number of replies the handler sends for one accepted command:
each handler branch performs exactly one `respch <- ...` on the channel
it read at `handlerRespchIndex`, so the count is 1 when that position
of the message holds the reply channel, and the handler panics with an
index-out-of-range (no reply, `none`) otherwise. -/
def handlerReplies (c : KVCmdName) : Option Nat :=
  match (cmdMessage c).get? (handlerRespchIndex c) with
  | some .respch => some 1
  | _ => none

/-! ## KV data path: scatter loop state (client.go, package projector) -/

/-- Upstream event opcodes used by `scatterMutation`
(`mcd.UPR_STREAMREQ` etc.). -/
inductive UprOpcode where
  | streamReq
  | streamEnd
  | mutation
  | deletion
  | snapshot
  | expiration
deriving DecidableEq

/-- Upstream event status (`mcd.SUCCESS`, `mcd.ROLLBACK`, anything else). -/
inductive UprStatus where
  | success
  | rollback
  | other
deriving DecidableEq

/-- Shallow embedding of the fields of `mc.UprEvent` that
`scatterMutation` reads or writes.  The failover log is a list of
`(vbuuid, seqno)` pairs, newest first. -/
structure UprEvent where
  Opcode : UprOpcode
  VBucket : Nat
  Status : UprStatus
  FailoverLog : List (Nat × Nat) := []
  VBuuid : Nat := 0
  Seqno : Nat := 0
deriving DecidableEq

/-- Modelled from the spec: `FailoverLog.Latest` (gomemcached, not in
the excerpt) returns the newest entry of the per-vbucket failover log,
with an error when the log is empty; the spec says the failover log is
an ordered list whose newest entry is used. -/
def latestFlog : List (Nat × Nat) → Option (Nat × Nat)
  | [] => none
  | e :: _ => some e

/-- Modelled from the spec: the per-vbucket state machine
(`VbucketRoutine`, component A, not in the excerpt).  We record the
latched vbuuid and starting seqno, the engine/endpoint maps it was
seeded with, and the events forwarded to it via `vr.Event(m)`. -/
structure VbucketRoutine where
  vbno : Nat
  vbuuid : Nat
  seqno : Nat
  engines : List (Nat × Nat)
  endpoints : List (String × Nat)
  events : List UprEvent
deriving DecidableEq

/-- Modelled from the spec: `vr.AddEngines(engines, endpoints)` hands
the routine the caller's current engine and endpoint maps. -/
def VbucketRoutine.addEngines (vr : VbucketRoutine)
    (es : List (Nat × Nat)) (eps : List (String × Nat)) : VbucketRoutine :=
  { vr with engines := es, endpoints := eps }

/-- Modelled from the spec: `vr.DeleteEngines(engineKeys)` removes the
listed engine uuids from the routine's engine map. -/
def VbucketRoutine.deleteEngines (vr : VbucketRoutine)
    (keys : List Nat) : VbucketRoutine :=
  { vr with engines := vr.engines.filter (fun p => ¬ keys.contains p.1) }

/-- Modelled from the spec: `vr.Event(m)` forwards one upstream event
to the routine; we record the forwarded events in order. -/
def VbucketRoutine.event (vr : VbucketRoutine) (m : UprEvent) : VbucketRoutine :=
  { vr with events := vr.events ++ [m] }

/-- Association-list lookup, the meaning of `kvdata.vrs[vbno]` on the
Go map. -/
def lookupVr (vrs : List (Nat × VbucketRoutine)) (vbno : Nat) :
    Option VbucketRoutine :=
  match vrs.find? (fun p => p.1 = vbno) with
  | some p => some p.2
  | none => none

/-- Update the routine stored under a present key (pointer update of
the routine object held in the Go map). -/
def updateVr (vrs : List (Nat × VbucketRoutine)) (vbno : Nat)
    (vr : VbucketRoutine) : List (Nat × VbucketRoutine) :=
  vrs.map (fun p => if p.1 = vbno then (vbno, vr) else p)

/-- Deletion `delete(kvdata.vrs, vbno)` on the Go map. -/
def delVr (vrs : List (Nat × VbucketRoutine)) (vbno : Nat) :
    List (Nat × VbucketRoutine) :=
  vrs.filter (fun p => ¬ p.1 = vbno)

/-- Insert-or-replace on an association list, the meaning of a Go map
assignment `m[k] = v`. -/
def insertA (l : List (Nat × Nat)) (kv : Nat × Nat) : List (Nat × Nat) :=
  if l.any (fun p => p.1 = kv.1) then
    l.map (fun p => if p.1 = kv.1 then kv else p)
  else l ++ [kv]

/-- Insert-or-replace on a string-keyed association list. -/
def insertAS (l : List (String × Nat)) (kv : String × Nat) :
    List (String × Nat) :=
  if l.any (fun p => p.1 = kv.1) then
    l.map (fun p => if p.1 = kv.1 then kv else p)
  else l ++ [kv]

/-- The mutable per-KVData state that `runScatter` and
`scatterMutation` operate on: the vbucket-routine map `vrs` (an
association list keyed by vbucket number), the registered engine map
and the endpoint map. -/
structure KVState where
  vrs : List (Nat × VbucketRoutine)
  engines : List (Nat × Nat)
  endpoints : List (String × Nat)
deriving DecidableEq

/-- Shallow embedding of `(kvdata *KVData) scatterMutation(m, ts)`
from client.go.  `ts` is the restart timestamp viewed through
`ts.SeqnoFor` (requested seqno per vbucket).  Returns `none` when the
Go code panics (`FailoverLog.Latest` fails on an empty failover log);
otherwise the updated state. -/
def scatterMutation (ts : Nat → Nat) (st : KVState) (m : UprEvent) :
    Option KVState :=
  match m.Opcode with
  | .streamReq =>
    if m.Status = .rollback then some st
    else if m.Status ≠ .success then some st
    else if (lookupVr st.vrs m.VBucket).isSome then some st
    else
      match latestFlog m.FailoverLog with
      | none => none
      | some (vbuuid, _) =>
        let seqno := ts m.VBucket
        let m' := { m with VBuuid := vbuuid, Seqno := seqno }
        let vr : VbucketRoutine :=
          { vbno := m.VBucket, vbuuid := vbuuid, seqno := seqno,
            engines := st.engines, endpoints := st.endpoints, events := [m'] }
        some { st with vrs := st.vrs ++ [(m.VBucket, vr)] }
  | .streamEnd =>
    match lookupVr st.vrs m.VBucket with
    | none => some st
    | some _ =>
      if m.Status ≠ .success then some st
      else some { st with vrs := delVr st.vrs m.VBucket }
  | _ =>
    match lookupVr st.vrs m.VBucket with
    | some vr => some { st with vrs := updateVr st.vrs m.VBucket (vr.event m) }
    | none => some st

/-- A control command received on `sbch`, with its payload. -/
inductive KVCmd where
  | addEngines (es : List (Nat × Nat)) (eps : List (String × Nat))
  | delEngines (keys : List Nat)
  | updateTs (t : List (Nat × Nat))
  | getStats
  | close
deriving DecidableEq

/-- One step of input to the scatter loop's `select`: an upstream event
from `mutch`, the closure of `mutch` (`ok == false`), or a control
command from `sbch`. -/
inductive KVInput where
  | event (m : UprEvent)
  | closed
  | ctrl (c : KVCmd)
deriving DecidableEq

/-- How the scatter loop run over a finite input sequence ended:
still running (all inputs consumed without leaving the loop), exited
because the upstream closed, exited because the routine map was empty
after processing an event, exited on a Close command, or terminated
abnormally through the recovered panic of a handler. -/
inductive ScatterOutcome where
  | running (st : KVState)
  | exitClosed (st : KVState)
  | exitEmpty (st : KVState)
  | exitClose (st : KVState)
  | exitPanic (st : KVState)
deriving DecidableEq

/-- The `kvCmdAddEngines` handler branch of `runScatter`: merge the
new engines and endpoints into the KVData maps, then hand the merged
maps to every routine via `vr.AddEngines`. -/
def addEnginesStep (st : KVState) (es : List (Nat × Nat))
    (eps : List (String × Nat)) : KVState :=
  let engines := es.foldl insertA st.engines
  let endpoints := eps.foldl insertAS st.endpoints
  { vrs := st.vrs.map (fun p => (p.1, p.2.addEngines engines endpoints)),
    engines := engines, endpoints := endpoints }

/-- The `kvCmdDelEngines` handler branch of `runScatter`: call
`vr.DeleteEngines` on every routine, then delete the keys from the
KVData engine map. -/
def delEnginesStep (st : KVState) (keys : List Nat) : KVState :=
  { st with
    vrs := st.vrs.map (fun p => (p.1, p.2.deleteEngines keys))
    engines := st.engines.filter (fun p => ¬ keys.contains p.1) }

/-- Shallow embedding of the `loop:` select loop of
`(kvdata *KVData) runScatter` from client.go, run over a finite
sequence of inputs.  The `kvCmdTs` branch reads `msg[2]` from the
2-element message built by `UpdateTs` and therefore panics
(index out of range), modelled as `exitPanic`; `scatterMutation`'s
panic on an empty failover log is likewise `exitPanic`. -/
def runScatter (ts : Nat → Nat) (st : KVState) : List KVInput → ScatterOutcome
  | [] => .running st
  | .closed :: _ => .exitClosed st
  | .event m :: rest =>
    match scatterMutation ts st m with
    | none => .exitPanic st
    | some st' =>
      if st'.vrs = [] then .exitEmpty st'
      else runScatter ts st' rest
  | .ctrl c :: rest =>
    match c with
    | .addEngines es eps => runScatter ts (addEnginesStep st es eps) rest
    | .delEngines keys => runScatter ts (delEnginesStep st keys) rest
    | .updateTs _ => .exitPanic st
    | .getStats => runScatter ts st rest
    | .close => .exitClose st

/-- The state carried by a scatter-loop outcome. -/
def ScatterOutcome.state : ScatterOutcome → KVState
  | .running st => st
  | .exitClosed st => st
  | .exitEmpty st => st
  | .exitClose st => st
  | .exitPanic st => st

/-- Whether the loop exited because the upstream channel closed. -/
def ScatterOutcome.isExitClosed : ScatterOutcome → Bool
  | .exitClosed _ => true
  | _ => false

theorem lookupVr_eq_none (vrs : List (Nat × VbucketRoutine)) (v : Nat) :
    lookupVr vrs v = none ↔ ∀ p ∈ vrs, p.1 ≠ v := by
  rcases hf : vrs.find? (fun p => p.1 = v) with _ | q
  · have hall := List.find?_eq_none.mp hf
    simp only [lookupVr, hf]
    exact ⟨fun _ p hp => by simpa using hall p hp, fun _ => by trivial⟩
  · have hq : q.1 = v := by simpa using List.find?_some hf
    have hqm := List.mem_of_find?_eq_some hf
    simp only [lookupVr, hf]
    constructor
    · intro h
      simp at h
    · intro h
      exact absurd hq (h q hqm)

theorem lookupVr_delVr_self (vrs : List (Nat × VbucketRoutine)) (v : Nat) :
    lookupVr (delVr vrs v) v = none := by
  apply (lookupVr_eq_none _ _).mpr
  intro p hp
  have hm := List.mem_filter.mp hp
  simpa using hm.2

theorem updateVr_keys (vrs : List (Nat × VbucketRoutine)) (v : Nat)
    (vr : VbucketRoutine) :
    (updateVr vrs v vr).map Prod.fst = vrs.map Prod.fst := by
  unfold updateVr
  rw [List.map_map]
  apply List.map_congr_left
  intro p _
  by_cases h : p.1 = v <;> simp [h, Function.comp]

theorem scatterMutation_preserves_nodup (ts : Nat → Nat) (st : KVState)
    (m : UprEvent) (st' : KVState) (hrun : scatterMutation ts st m = some st')
    (hnd : (st.vrs.map Prod.fst).Nodup) : (st'.vrs.map Prod.fst).Nodup := by
  unfold scatterMutation at hrun
  rcases m with ⟨op, vb, stat, flog, vbu, sq⟩
  match op with
  | .streamReq =>
    simp only at hrun
    by_cases h1 : stat = UprStatus.rollback
    · rw [if_pos h1] at hrun
      cases hrun
      exact hnd
    · rw [if_neg h1] at hrun
      by_cases h2 : stat ≠ UprStatus.success
      · rw [if_pos h2] at hrun
        cases hrun
        exact hnd
      · rw [if_neg h2] at hrun
        by_cases h3 : (lookupVr st.vrs vb).isSome
        · rw [if_pos h3] at hrun
          cases hrun
          exact hnd
        · rw [if_neg h3] at hrun
          match hflog : flog with
          | [] =>
            simp [latestFlog] at hrun
          | (u, s) :: rest =>
            simp only [latestFlog] at hrun
            cases hrun
            have habs : vb ∉ st.vrs.map Prod.fst := by
              have hnone : lookupVr st.vrs vb = none := by
                cases hl : lookupVr st.vrs vb with
                | none => rfl
                | some q => rw [hl] at h3; simp at h3
              intro hmem
              obtain ⟨p, hp, hpv⟩ := List.mem_map.mp hmem
              exact (lookupVr_eq_none _ _).mp hnone p hp hpv
            simpa using List.Nodup.append hnd (by simp)
              (by simpa [List.disjoint_singleton] using habs)
  | .streamEnd =>
    simp only at hrun
    match hl : lookupVr st.vrs vb with
    | none =>
      rw [hl] at hrun
      cases hrun
      exact hnd
    | some q =>
      rw [hl] at hrun
      by_cases h2 : stat ≠ UprStatus.success
      · rw [if_pos h2] at hrun
        cases hrun
        exact hnd
      · rw [if_neg h2] at hrun
        cases hrun
        exact List.Nodup.sublist (List.Sublist.map _ (List.filter_sublist _)) hnd
  | .mutation =>
    simp only at hrun
    match hl : lookupVr st.vrs vb with
    | none => rw [hl] at hrun; cases hrun; exact hnd
    | some q =>
      rw [hl] at hrun
      cases hrun
      rw [updateVr_keys]
      exact hnd
  | .deletion =>
    simp only at hrun
    match hl : lookupVr st.vrs vb with
    | none => rw [hl] at hrun; cases hrun; exact hnd
    | some q =>
      rw [hl] at hrun
      cases hrun
      rw [updateVr_keys]
      exact hnd
  | .snapshot =>
    simp only at hrun
    match hl : lookupVr st.vrs vb with
    | none => rw [hl] at hrun; cases hrun; exact hnd
    | some q =>
      rw [hl] at hrun
      cases hrun
      rw [updateVr_keys]
      exact hnd
  | .expiration =>
    simp only at hrun
    match hl : lookupVr st.vrs vb with
    | none => rw [hl] at hrun; cases hrun; exact hnd
    | some q =>
      rw [hl] at hrun
      cases hrun
      rw [updateVr_keys]
      exact hnd

theorem keys_map_entries (vrs : List (Nat × VbucketRoutine))
    (g : Nat × VbucketRoutine → VbucketRoutine) :
    ((vrs.map (fun p => (p.1, g p))).map Prod.fst) = vrs.map Prod.fst := by
  simp [List.map_map, Function.comp]

/-- C2 evidence: the `sbch` server channel is bounded at 16, and for
`AddEngines`, `DeleteEngines`, `GetStatistics` and `Close` the caller's
message carries the reply channel exactly at the index the serial
handler reads it from, whereupon the handler sends exactly one reply
(`handlerReplies = some 1`).  For `UpdateTs`, however, the caller's
message has only 2 elements while the handler reads `msg[2]`, so the
element is out of range and the handler panics without ever replying
(`handlerReplies = none`): the claim fails on `UpdateTs`. -/
theorem c2_kvdata_control_reply_positions :
    sbchCapacity = 16 ∧
    handlerReplies .addEngines = some 1 ∧
    handlerReplies .delEngines = some 1 ∧
    handlerReplies .getStats = some 1 ∧
    handlerReplies .close = some 1 ∧
    (cmdMessage .updateTs).length = 2 ∧
    handlerRespchIndex .updateTs = 2 ∧
    (cmdMessage .updateTs).get? (handlerRespchIndex .updateTs) = none ∧
    handlerReplies .updateTs = none := by
  decide

/-- Requested-seqno view of a restart timestamp: every vbucket maps to
seqno 0. -/
def ts0 : Nat → Nat := fun _ => 0

/-- Initial KVData state: empty routine map, no engines, no endpoints. -/
def st0 : KVState := { vrs := [], engines := [], endpoints := [] }

/-- A StreamRequest(SUCCESS) event for vbucket 7 whose failover log has
newest entry (vbuuid 11, seqno 5). -/
def e7 : UprEvent :=
  { Opcode := .streamReq, VBucket := 7, Status := .success,
    FailoverLog := [(11, 5)] }

/-- The routine created for vbucket 7 by processing `e7` from `st0`. -/
def vr7 : VbucketRoutine :=
  { vbno := 7, vbuuid := 11, seqno := 0, engines := [], endpoints := [],
    events := [{ e7 with VBuuid := 11, Seqno := 0 }] }

/-- The state after processing `e7` from `st0`. -/
def st7 : KVState := { vrs := [(7, vr7)], engines := [], endpoints := [] }

/-- C3 counterexample: the scatter loop does NOT exit only when the
routine map is empty and the upstream has closed (or a Close command
arrives).  On the input sequence [StreamRequest(SUCCESS) for vbucket 7,
upstream closed] — which contains no Close command — the loop exits on
the upstream closure while one routine is still in the map, because the
`ok == false` arm breaks the loop unconditionally. -/
theorem c3_scatter_exit_counterexample :
    (runScatter ts0 st0 [.event e7, .closed]).isExitClosed = true ∧
    (runScatter ts0 st0 [.event e7, .closed]).state.vrs.length = 1 ∧
    ([KVInput.event e7, KVInput.closed].contains (.ctrl .close)) = false := by
  decide

/-- C3 (amended): the scatter loop exits exactly when the upstream
channel closes (regardless of remaining routines), or when the routine
map is empty after processing an upstream event, or when a Close
command is received, or when a handler panics; absent those, each
upstream event is consumed and the loop continues, and a finite input
sequence without such a trigger leaves the loop running. -/
theorem c3_scatter_loop_exit_amended (ts : Nat → Nat) :
    (∀ st, runScatter ts st [] = .running st) ∧
    (∀ st rest, runScatter ts st (.closed :: rest) = .exitClosed st) ∧
    (∀ st m rest st', scatterMutation ts st m = some st' → st'.vrs ≠ [] →
      runScatter ts st (.event m :: rest) = runScatter ts st' rest) ∧
    (∀ st m rest st', scatterMutation ts st m = some st' → st'.vrs = [] →
      runScatter ts st (.event m :: rest) = .exitEmpty st') ∧
    (∀ st m rest, scatterMutation ts st m = none →
      runScatter ts st (.event m :: rest) = .exitPanic st) ∧
    (∀ st rest, runScatter ts st (.ctrl .close :: rest) = .exitClose st) := by
  refine ⟨fun st => rfl, fun st rest => rfl, ?_, ?_, ?_, fun st rest => rfl⟩
  · intro st m rest st' h1 h2
    simp [runScatter, h1, h2]
  · intro st m rest st' h1 h2
    simp [runScatter, h1, h2]
  · intro st m rest h1
    simp [runScatter, h1]

/-- Witness for the amended C3: processing the StreamRequest event from
the empty state leaves a non-empty routine map, and the loop continues
with the remaining inputs. -/
theorem c3_scatter_loop_exit_amended_witness :
    runScatter ts0 st0 [.event e7] = runScatter ts0 st7 [] :=
  (c3_scatter_loop_exit_amended ts0).2.2.1 st0 e7 [] st7 (by decide) (by decide)

/-- C4: at most one vbucket routine per vbucket number.  (a) every
`scatterMutation` step preserves distinctness of the keys of the
routine map; (b) a StreamRequest(SUCCESS) for a vbucket already in the
map leaves the whole state unchanged — it neither creates nor replaces
a routine; (c) after a successful StreamEnd the vbucket's entry is
absent from the map; (d) the whole scatter loop preserves key
distinctness over any input sequence. -/
theorem c4_unique_routine_per_vbucket (ts : Nat → Nat) :
    (∀ st m st', scatterMutation ts st m = some st' →
      (st.vrs.map Prod.fst).Nodup → (st'.vrs.map Prod.fst).Nodup) ∧
    (∀ st m, m.Opcode = .streamReq → m.Status = .success →
      (lookupVr st.vrs m.VBucket).isSome → scatterMutation ts st m = some st) ∧
    (∀ st m st', m.Opcode = .streamEnd → m.Status = .success →
      scatterMutation ts st m = some st' → lookupVr st'.vrs m.VBucket = none) ∧
    (∀ st inputs, (st.vrs.map Prod.fst).Nodup →
      (((runScatter ts st inputs).state).vrs.map Prod.fst).Nodup) := by
  refine ⟨scatterMutation_preserves_nodup ts, ?_, ?_, ?_⟩
  · intro st m hop hstat hsome
    simp [scatterMutation, hop, hstat, hsome]
  · intro st m st' hop hstat hrun
    simp only [scatterMutation, hop] at hrun
    match hl : lookupVr st.vrs m.VBucket with
    | none =>
      rw [hl] at hrun
      cases hrun
      exact hl
    | some q =>
      rw [hl] at hrun
      rw [if_neg (by simp [hstat])] at hrun
      cases hrun
      exact lookupVr_delVr_self st.vrs m.VBucket
  · intro st inputs
    induction inputs generalizing st with
    | nil => intro h; exact h
    | cons i rest ih =>
      intro hnd
      match i with
      | .closed => exact hnd
      | .event m =>
        match hsm : scatterMutation ts st m with
        | none => simpa [runScatter, hsm, ScatterOutcome.state] using hnd
        | some st' =>
          have hnd' := scatterMutation_preserves_nodup ts st m st' hsm hnd
          by_cases he : st'.vrs = []
          · simp [runScatter, hsm, he, ScatterOutcome.state]
          · simpa [runScatter, hsm, he] using ih st' hnd'
      | .ctrl c =>
        match c with
        | .addEngines es eps =>
          have hk : ((addEnginesStep st es eps).vrs.map Prod.fst).Nodup := by
            simpa [addEnginesStep, keys_map_entries] using hnd
          simpa [runScatter] using ih (addEnginesStep st es eps) hk
        | .delEngines keys =>
          have hk : ((delEnginesStep st keys).vrs.map Prod.fst).Nodup := by
            simpa [delEnginesStep, keys_map_entries] using hnd
          simpa [runScatter] using ih (delEnginesStep st keys) hk
        | .updateTs t => exact hnd
        | .getStats => simpa [runScatter] using ih st hnd
        | .close => exact hnd

/-- Witness for C4 at concrete inputs: a duplicate StreamRequest for
vbucket 7 (already in the map) leaves the state unchanged. -/
theorem c4_unique_routine_per_vbucket_witness :
    scatterMutation ts0 st7 e7 = some st7 :=
  (c4_unique_routine_per_vbucket ts0).2.1 st7 e7 rfl rfl (by decide)

/-- C5: a StreamRequest(SUCCESS) for a vbucket absent from the map
creates a new routine whose vbuuid is the newest entry of the event's
failover log and whose starting seqno is the requested seqno looked up
for that vbucket in the restart timestamp; the routine is seeded with
the currently registered engines and endpoints, receives the (updated)
event as its first forwarded event, and is recorded in the map under
the vbucket number, all other entries unchanged. -/
theorem c5_streamreq_new_routine (ts : Nat → Nat) (st : KVState) (m : UprEvent)
    (vbuuid s : Nat) (frest : List (Nat × Nat))
    (hop : m.Opcode = .streamReq) (hstat : m.Status = .success)
    (habs : lookupVr st.vrs m.VBucket = none)
    (hflog : m.FailoverLog = (vbuuid, s) :: frest) :
    scatterMutation ts st m =
      some { st with vrs := st.vrs ++ [(m.VBucket,
        { vbno := m.VBucket, vbuuid := vbuuid, seqno := ts m.VBucket,
          engines := st.engines, endpoints := st.endpoints,
          events := [{ m with VBuuid := vbuuid, Seqno := ts m.VBucket }] })] } := by
  have hsome : (lookupVr st.vrs m.VBucket).isSome = false := by
    simp [habs]
  simp [scatterMutation, hop, hstat, hsome, hflog, latestFlog]

/-- Witness for C5: processing `e7` from the empty state creates the
vbucket-7 routine with vbuuid 11 (newest failover-log entry) and
seqno `ts0 7 = 0`. -/
theorem c5_streamreq_new_routine_witness :
    scatterMutation ts0 st0 e7 =
      some { st0 with vrs := st0.vrs ++ [(e7.VBucket,
        { vbno := e7.VBucket, vbuuid := 11, seqno := ts0 e7.VBucket,
          engines := st0.engines, endpoints := st0.endpoints,
          events := [{ e7 with VBuuid := 11, Seqno := ts0 e7.VBucket }] })] } :=
  c5_streamreq_new_routine ts0 st0 e7 11 5 [] rfl rfl rfl rfl

/-! ## Planner data model (proxy.go, package planner) -/

/-- Modelled from the spec: the sizing estimates that
`SizingMethod.ComputeIndexSize` (not in the excerpt) writes into an
index — per spec section 4.E a pure mapping from the descriptive fields
to estimated memory usage, memory overhead and cpu usage. -/
structure SizingStats where
  MemUsage : Nat := 0
  MemOverhead : Nat := 0
  CpuUsage : Nat := 0
deriving DecidableEq, Inhabited

/-- The fields of the `*IndexerNode` pointer that `genTransferToken`
and `filterPinnedIndexes` read through `index.initialNode`. -/
structure NodeSnap where
  NodeId : String := ""
  NodeUUID : String := ""
deriving DecidableEq, Inhabited

/-- Modelled from the spec: the planner `IndexUsage` struct (its
declaration is not in the excerpt; the fields are those assigned in
`indexUsageFromSpec` and `getIndexLayout`).  Field defaults are the Go
zero values.  `Definition` is the `*common.IndexDefn` pointer, `sizing`
stands for the sizing fields written by `ComputeIndexSize`, and
`initialNode` is the unexported (lower-case) pointer to the node owning
the index at plan start. -/
structure IndexUsage where
  DefnId : Nat := 0
  InstId : Nat := 0
  Name : String := ""
  Bucket : String := ""
  IsPrimary : Bool := false
  IsMOI : Bool := false
  Hosts : List String := []
  NumOfDocs : Nat := 0
  AvgDocKeySize : Nat := 0
  AvgSecKeySize : Nat := 0
  AvgArrKeySize : Nat := 0
  AvgArrSize : Nat := 0
  MutationRate : Nat := 0
  ScanRate : Nat := 0
  Definition : Option IndexDefn := none
  sizing : Option SizingStats := none
  initialNode : Option NodeSnap := none
deriving DecidableEq, Inhabited

/-- Modelled from the spec: the planner `IndexerNode` struct (fields as
used in proxy.go); `delete` is the unexported evacuation flag set by
`changeTopology`. -/
structure IndexerNode where
  NodeId : String := ""
  NodeUUID : String := ""
  Indexes : List IndexUsage := []
  ActualMemUsage : Nat := 0
  ActualMemOverhead : Nat := 0
  delete : Bool := false
deriving DecidableEq, Inhabited

/-- Shallow embedding of `planner.Plan` from proxy.go: placement,
memory quota, cpu quota, live flag. -/
structure Plan where
  Placement : List IndexerNode := []
  MemQuota : Nat := 0
  CpuQuota : Nat := 0
  IsLive : Bool := false
deriving DecidableEq, Inhabited

/-- Modelled from the spec: the `Solution` fields read by
`genTransferToken` and `savePlan` — the placement list and the
`isLiveData` flag. -/
structure Solution where
  Placement : List IndexerNode := []
  isLiveData : Bool := false
deriving DecidableEq, Inhabited

/-- The `service.TopologyChange` field read by `genTransferToken`. -/
structure TopologyChange where
  ID : String := ""
deriving DecidableEq, Inhabited

/-- Shallow embedding of `planner.TransferToken` from proxy.go. -/
structure TransferToken where
  MasterId : String
  SourceId : String
  DestId : String
  RebalId : String
  State : String
  InstId : Nat
  IndexDefn : IndexDefn
deriving DecidableEq

/-- Shallow embedding of `planner.IndexSpec` from proxy.go (uint64
fields as `Nat`). -/
structure IndexSpec where
  Name : String := ""
  Bucket : String := ""
  IsPrimary : Bool := false
  SecExprs : List String := []
  WhereExpr : String := ""
  Deferred : Bool := false
  Immutable : Bool := false
  IsArrayIndex : Bool := false
  Replica : Nat := 0
  NumDoc : Nat := 0
  DocKeySize : Nat := 0
  SecKeySize : Nat := 0
  ArrKeySize : Nat := 0
  ArrSize : Nat := 0
  MutationRate : Nat := 0
  ScanRate : Nat := 0
deriving DecidableEq, Inhabited

/-- Modelled from the spec: `sizing.ComputeIndexSize(index)` computes
the sizing estimates from the index's descriptive fields and stores
them on the index; the sizing formula itself (`MOISizingMethod`, not in
the excerpt) is the opaque parameter `szMethod`. -/
def computeIndexSize (szMethod : IndexUsage → SizingStats)
    (idx : IndexUsage) : IndexUsage :=
  { idx with sizing := some (szMethod idx) }

/-- The `i`-th replica record built by the loop body of
`indexUsageFromSpec` (before `ComputeIndexSize`): one shared freshly
generated definition id `uuid`, `InstId i`, replica 0 keeping the base
name and replica `i ≥ 1` named `Name_i`, and the embedded
`common.IndexDefn` assigned field by field as in the source. -/
def replicaUsage (uuid : Nat) (spec : IndexSpec) (i : Nat) : IndexUsage :=
  { DefnId := uuid, InstId := i, Bucket := spec.Bucket, IsMOI := true,
    IsPrimary := spec.IsPrimary,
    Name := if i = 0 then spec.Name else spec.Name ++ "_" ++ toString i,
    Definition := some
      { Name := if i = 0 then spec.Name else spec.Name ++ "_" ++ toString i,
        Bucket := spec.Bucket, IsPrimary := spec.IsPrimary,
        SecExprs := spec.SecExprs, WhereExpr := spec.WhereExpr,
        Immutable := spec.Immutable, IsArrayIndex := spec.IsArrayIndex },
    NumOfDocs := spec.NumDoc, AvgDocKeySize := spec.DocKeySize,
    AvgSecKeySize := spec.SecKeySize, AvgArrKeySize := spec.ArrKeySize,
    AvgArrSize := spec.ArrSize, MutationRate := spec.MutationRate,
    ScanRate := spec.ScanRate }

/-- Shallow embedding of `indexUsageFromSpec(sizing, spec)` from
proxy.go: a slice of `spec.Replica` entries, entry `i` being the `i`-th
replica record with its sizing computed.  `uuid` is the result of the
single `common.NewUUID()` call shared by all replicas. -/
def indexUsageFromSpec (szMethod : IndexUsage → SizingStats) (uuid : Nat)
    (spec : IndexSpec) : List IndexUsage :=
  (List.range spec.Replica).map
    (fun i => computeIndexSize szMethod (replicaUsage uuid spec i))

/-- C7: expanding an IndexSpec with `Replica = n` yields exactly `n`
IndexUsage instances sharing the one freshly generated definition id;
instance 0 keeps the base name and instance `i ≥ 1` is named
`Name_i`; instance `i` has `InstId i`; and sizing is computed for each
instance (the stored sizing is the sizing method applied to that very
instance's descriptive fields). -/
theorem c7_indexUsageFromSpec_replicas (szMethod : IndexUsage → SizingStats)
    (uuid : Nat) (spec : IndexSpec) :
    (indexUsageFromSpec szMethod uuid spec).length = spec.Replica ∧
    ∀ i u, (indexUsageFromSpec szMethod uuid spec).get? i = some u →
      u.DefnId = uuid ∧ u.InstId = i ∧
      u.Name = (if i = 0 then spec.Name else spec.Name ++ "_" ++ toString i) ∧
      u.sizing = some (szMethod { u with sizing := none }) := by
  constructor
  · simp [indexUsageFromSpec]
  · intro i u hu
    have hi : i < spec.Replica := by
      by_contra hge
      rw [List.get?_eq_none.mpr (by simpa [indexUsageFromSpec] using Nat.le_of_not_lt hge)] at hu
      cases hu
    have hval : (indexUsageFromSpec szMethod uuid spec).get? i =
        some (computeIndexSize szMethod (replicaUsage uuid spec i)) := by
      simp [indexUsageFromSpec, List.get?_eq_getElem?, List.getElem?_map,
        List.getElem?_range hi]
    rw [hval] at hu
    cases hu
    refine ⟨rfl, rfl, rfl, ?_⟩
    have hbase : { computeIndexSize szMethod (replicaUsage uuid spec i)
        with sizing := none } = replicaUsage uuid spec i := rfl
    rw [hbase]
    rfl

/-- Sizing method used by concrete planner examples. -/
def exSizing : IndexUsage → SizingStats :=
  fun u => { MemUsage := u.NumOfDocs * 2, MemOverhead := 1, CpuUsage := 3 }

/-- Spec used by the concrete C7 instance: two replicas of index
"idx" on bucket "b". -/
def exSpec : IndexSpec := { Name := "idx", Bucket := "b", Replica := 2, NumDoc := 10 }

/-- Replica 1 of `exSpec` as produced by `indexUsageFromSpec`. -/
def exUsage1 : IndexUsage :=
  ((indexUsageFromSpec exSizing 7 exSpec).getD 1 default)

/-- Witness for C7 at `exSpec`: two replicas; replica 1 carries the
shared definition id 7, InstId 1, name "idx_1", and its computed
sizing. -/
theorem c7_indexUsageFromSpec_replicas_witness :
    (indexUsageFromSpec exSizing 7 exSpec).length = 2 ∧
    (exUsage1.DefnId = 7 ∧ exUsage1.InstId = 1 ∧
      exUsage1.Name = (if 1 = 0 then exSpec.Name else exSpec.Name ++ "_" ++ toString 1) ∧
      exUsage1.sizing = some (exSizing { exUsage1 with sizing := none })) :=
  ⟨(c7_indexUsageFromSpec_replicas exSizing 7 exSpec).1,
   (c7_indexUsageFromSpec_replicas exSizing 7 exSpec).2 1 exUsage1 (by rfl)⟩

/-- The body of `genTransferToken`'s inner loop for one index hosted on
`indexer`: dereference `index.initialNode` (a nil pointer panics:
`none`); when the hosting node differs from the initial node, build the
TransferToken from `*index.Definition` (nil pointer panics: `none`);
when the node did not change, no token (`some none`). -/
def mkToken (masterId rebalId : String) (indexer : IndexerNode)
    (ini : NodeSnap) (index : IndexUsage) (defn : IndexDefn) : TransferToken :=
  { MasterId := masterId
    SourceId := ini.NodeUUID
    DestId := indexer.NodeUUID
    RebalId := rebalId
    State := "TransferTokenCreated"
    InstId := index.InstId
    IndexDefn := defn }

def tokenFor (masterId : String) (rebalId : String) (indexer : IndexerNode)
    (index : IndexUsage) : Option (Option TransferToken) :=
  match index.initialNode with
  | none => none
  | some ini =>
    if ini.NodeId ≠ indexer.NodeId then
      match index.Definition with
      | none => none
      | some defn => some (some (mkToken masterId rebalId indexer ini index defn))
    else some none

theorem tokenFor_fields (masterId rebalId : String) (indexer : IndexerNode)
    (index : IndexUsage) (t : TransferToken)
    (h : tokenFor masterId rebalId indexer index = some (some t)) :
    t.State = "TransferTokenCreated" ∧ t.MasterId = masterId ∧
      t.RebalId = rebalId := by
  unfold tokenFor at h
  match hini : index.initialNode with
  | none =>
    rw [hini] at h
    cases h
  | some ini =>
    rw [hini] at h
    dsimp only at h
    by_cases hne : ini.NodeId ≠ indexer.NodeId
    · rw [if_pos hne] at h
      match hd : index.Definition with
      | none =>
        rw [hd] at h
        cases h
      | some defn =>
        rw [hd] at h
        simp only [Option.some.injEq] at h
        subst h
        exact ⟨rfl, rfl, rfl⟩
    · rw [if_neg hne] at h
      simp at h

/-- Shallow embedding of `genTransferToken(solution, masterId,
topologyChange)` from proxy.go: iterate over the placement and over
each indexer's indexes, accumulating a token per index whose
`initialNode.NodeId` differs from the hosting indexer's.  The Go map
keyed by freshly generated `ttid`s is modelled as the list of tokens in
emission order; `none` models the nil-pointer panics of
`index.initialNode` / `index.Definition`. -/
def genTransferToken (solution : Solution) (masterId : String)
    (topologyChange : TopologyChange) : Option (List TransferToken) :=
  solution.Placement.foldl (fun acc indexer =>
    indexer.Indexes.foldl (fun acc2 index =>
      match acc2 with
      | none => none
      | some tks =>
        match tokenFor masterId topologyChange.ID indexer index with
        | none => none
        | some none => some tks
        | some (some t) => some (tks ++ [t])) acc) (some [])

/-- The tokens described by the claim, stated independently of the
accumulator loop: for every indexer of the final solution, one token
for each of its indexes whose node changed, none for the others. -/
def transferTokensSpec (solution : Solution) (masterId : String)
    (topologyChange : TopologyChange) : List TransferToken :=
  solution.Placement.flatMap (fun indexer =>
    indexer.Indexes.filterMap (fun index =>
      (tokenFor masterId topologyChange.ID indexer index).join))

theorem genTT_inner_none (masterId rebalId : String) (indexer : IndexerNode) :
    ∀ idxs : List IndexUsage,
      idxs.foldl (fun acc2 index =>
        match acc2 with
        | none => none
        | some tks =>
          match tokenFor masterId rebalId indexer index with
          | none => none
          | some none => some tks
          | some (some t) => some (tks ++ [t]))
        (none : Option (List TransferToken)) = none := by
  intro idxs
  induction idxs with
  | nil => rfl
  | cons i rest ih => simpa using ih

theorem genTT_inner (masterId rebalId : String) (indexer : IndexerNode) :
    ∀ (idxs : List IndexUsage) (acc : List TransferToken),
      (∀ index ∈ idxs, (tokenFor masterId rebalId indexer index).isSome) →
      idxs.foldl (fun acc2 index =>
        match acc2 with
        | none => none
        | some tks =>
          match tokenFor masterId rebalId indexer index with
          | none => none
          | some none => some tks
          | some (some t) => some (tks ++ [t])) (some acc) =
      some (acc ++ idxs.filterMap (fun index =>
        (tokenFor masterId rebalId indexer index).join)) := by
  intro idxs
  induction idxs with
  | nil =>
    intro acc _
    simp
  | cons i rest ih =>
    intro acc hall
    have hi := hall i (List.mem_cons_self i rest)
    have hrest := fun index hm => hall index (List.mem_cons_of_mem _ hm)
    match hti : tokenFor masterId rebalId indexer i with
    | none => rw [hti] at hi; simp at hi
    | some none =>
      simp only [List.foldl_cons, hti, List.filterMap_cons, Option.join]
      exact ih acc hrest
    | some (some t) =>
      simp only [List.foldl_cons, hti, List.filterMap_cons, Option.join]
      rw [ih (acc ++ [t]) hrest]
      simp

theorem genTT_outer (masterId : String) (tc : TopologyChange) :
    ∀ (placement : List IndexerNode) (acc : List TransferToken),
      (∀ indexer ∈ placement, ∀ index ∈ indexer.Indexes,
        (tokenFor masterId tc.ID indexer index).isSome) →
      placement.foldl (fun acc indexer =>
        indexer.Indexes.foldl (fun acc2 index =>
          match acc2 with
          | none => none
          | some tks =>
            match tokenFor masterId tc.ID indexer index with
            | none => none
            | some none => some tks
            | some (some t) => some (tks ++ [t])) acc) (some acc) =
      some (acc ++ placement.flatMap (fun indexer =>
        indexer.Indexes.filterMap (fun index =>
          (tokenFor masterId tc.ID indexer index).join))) := by
  intro placement
  induction placement with
  | nil =>
    intro acc _
    simp
  | cons indexer rest ih =>
    intro acc hall
    have hn := hall indexer (List.mem_cons_self indexer rest)
    have hrest := fun n hm => hall n (List.mem_cons_of_mem _ hm)
    simp only [List.foldl_cons, List.flatMap_cons]
    rw [genTT_inner masterId tc.ID indexer indexer.Indexes acc hn,
      ih _ hrest]
    simp

/-- C6: for a final solution all of whose indexes carry their
`initialNode` and `Definition` pointers, `genTransferToken` emits
exactly the tokens of `transferTokensSpec`: one per index whose hosting
indexer differs from its initial node and none for an index whose node
did not change; and every emitted token has State
"TransferTokenCreated", MasterId the given master id, RebalId the
topology change id, SourceId the initial node's UUID, DestId the
destination node's UUID, and the index's instance id and definition
(the fields built into `tokenFor`). -/
theorem c6_genTransferToken_tokens (sol : Solution) (masterId : String)
    (tc : TopologyChange)
    (hwf : ∀ indexer ∈ sol.Placement, ∀ index ∈ indexer.Indexes,
      (tokenFor masterId tc.ID indexer index).isSome) :
    genTransferToken sol masterId tc =
      some (transferTokensSpec sol masterId tc) ∧
    ∀ t ∈ transferTokensSpec sol masterId tc,
      t.State = "TransferTokenCreated" ∧ t.MasterId = masterId ∧
      t.RebalId = tc.ID := by
  constructor
  · have h := genTT_outer masterId tc sol.Placement [] hwf
    simpa [genTransferToken, transferTokensSpec] using h
  · intro t ht
    simp only [transferTokensSpec, List.mem_flatMap] at ht
    obtain ⟨indexer, _, hmem⟩ := ht
    obtain ⟨index, _, hjoin⟩ := List.mem_filterMap.mp hmem
    match hti : (tokenFor masterId tc.ID indexer index) with
    | none => rw [hti] at hjoin; simp [Option.join] at hjoin
    | some none => rw [hti] at hjoin; simp [Option.join] at hjoin
    | some (some t') =>
      rw [hti] at hjoin
      simp only [Option.join, Option.some_bind, id_eq, Option.some.injEq] at hjoin
      subst hjoin
      exact tokenFor_fields masterId tc.ID indexer index _ hti

/-- Moved index of the concrete C6 instance: hosted on n1, initially
on n2. -/
def exIndex1 : IndexUsage :=
  { Name := "i1", InstId := 4,
    Definition := some { Name := "i1", Bucket := "b" },
    initialNode := some { NodeId := "n2", NodeUUID := "u2" } }

/-- Unmoved index of the concrete C6 instance: hosted and initially
on n2. -/
def exIndex2 : IndexUsage :=
  { Name := "i2", InstId := 5,
    Definition := some { Name := "i2", Bucket := "b" },
    initialNode := some { NodeId := "n2", NodeUUID := "u2" } }

/-- Solution used by the concrete C6 instance: "i1" moved from n2 to
n1; "i2" stayed on n2. -/
def exSolution : Solution :=
  { Placement :=
      [ { NodeId := "n1", NodeUUID := "u1", Indexes := [exIndex1] },
        { NodeId := "n2", NodeUUID := "u2", Indexes := [exIndex2] } ] }

/-- Witness for C6 at `exSolution`: the loop emits exactly the
spec-shaped token list (here, the single token for the moved "i1"). -/
theorem c6_genTransferToken_tokens_witness :
    genTransferToken exSolution "master" { ID := "rb1" } =
      some (transferTokensSpec exSolution "master" { ID := "rb1" }) :=
  (c6_genTransferToken_tokens exSolution "master" { ID := "rb1" } (by decide)).1

/-! ## Plan persistence: savePlan / ReadPlan (proxy.go) -/

/-- Modelled from the spec: the JSON image of an `IndexUsage` under Go
`encoding/json` as written by `savePlan` and read back by `ReadPlan`.
Only exported (capitalised) fields appear in the JSON; the unexported
`initialNode` pointer does not. -/
structure WireIndexUsage where
  DefnId : Nat := 0
  InstId : Nat := 0
  Name : String := ""
  Bucket : String := ""
  IsPrimary : Bool := false
  IsMOI : Bool := false
  Hosts : List String := []
  NumOfDocs : Nat := 0
  AvgDocKeySize : Nat := 0
  AvgSecKeySize : Nat := 0
  AvgArrKeySize : Nat := 0
  AvgArrSize : Nat := 0
  MutationRate : Nat := 0
  ScanRate : Nat := 0
  Definition : Option IndexDefn := none
  sizing : Option SizingStats := none
deriving DecidableEq

/-- Modelled from the spec: the JSON image of an `IndexerNode`; the
unexported `delete` flag is not serialized. -/
structure WireIndexerNode where
  NodeId : String := ""
  NodeUUID : String := ""
  Indexes : List WireIndexUsage := []
  ActualMemUsage : Nat := 0
  ActualMemOverhead : Nat := 0
deriving DecidableEq

/-- The JSON image of a `Plan`: `{placement, memQuota, cpuQuota,
isLive}`. -/
structure WirePlan where
  Placement : List WireIndexerNode := []
  MemQuota : Nat := 0
  CpuQuota : Nat := 0
  IsLive : Bool := false
deriving DecidableEq

/-- Marshal one index: keep every exported field, drop `initialNode`. -/
def marshalIndex (i : IndexUsage) : WireIndexUsage :=
  { DefnId := i.DefnId, InstId := i.InstId, Name := i.Name,
    Bucket := i.Bucket, IsPrimary := i.IsPrimary, IsMOI := i.IsMOI,
    Hosts := i.Hosts, NumOfDocs := i.NumOfDocs,
    AvgDocKeySize := i.AvgDocKeySize, AvgSecKeySize := i.AvgSecKeySize,
    AvgArrKeySize := i.AvgArrKeySize, AvgArrSize := i.AvgArrSize,
    MutationRate := i.MutationRate, ScanRate := i.ScanRate,
    Definition := i.Definition, sizing := i.sizing }

/-- Unmarshal one index: exported fields from the JSON, unexported
`initialNode` left at its zero value (nil). -/
def unmarshalIndex (w : WireIndexUsage) : IndexUsage :=
  { DefnId := w.DefnId, InstId := w.InstId, Name := w.Name,
    Bucket := w.Bucket, IsPrimary := w.IsPrimary, IsMOI := w.IsMOI,
    Hosts := w.Hosts, NumOfDocs := w.NumOfDocs,
    AvgDocKeySize := w.AvgDocKeySize, AvgSecKeySize := w.AvgSecKeySize,
    AvgArrKeySize := w.AvgArrKeySize, AvgArrSize := w.AvgArrSize,
    MutationRate := w.MutationRate, ScanRate := w.ScanRate,
    Definition := w.Definition, sizing := w.sizing, initialNode := none }

/-- Marshal one indexer node: exported fields only, `delete` dropped. -/
def marshalNode (n : IndexerNode) : WireIndexerNode :=
  { NodeId := n.NodeId, NodeUUID := n.NodeUUID,
    Indexes := n.Indexes.map marshalIndex,
    ActualMemUsage := n.ActualMemUsage,
    ActualMemOverhead := n.ActualMemOverhead }

/-- Unmarshal one indexer node: `delete` comes back as its zero value
`false`. -/
def unmarshalNode (w : WireIndexerNode) : IndexerNode :=
  { NodeId := w.NodeId, NodeUUID := w.NodeUUID,
    Indexes := w.Indexes.map unmarshalIndex,
    ActualMemUsage := w.ActualMemUsage,
    ActualMemOverhead := w.ActualMemOverhead, delete := false }

/-- Shallow embedding of the serialization performed by
`savePlan(output, solution, constraint)` from proxy.go: the `Plan`
value `{solution.Placement, memQuota, cpuQuota, solution.isLiveData}`
is marshalled to JSON (`json.MarshalIndent`) and written to the file;
we model the JSON produced for a given plan value, treating the file
as a faithful channel. -/
def savePlan (p : Plan) : WirePlan :=
  { Placement := p.Placement.map marshalNode, MemQuota := p.MemQuota,
    CpuQuota := p.CpuQuota, IsLive := p.IsLive }

/-- Shallow embedding of `ReadPlan(planFile)` from proxy.go:
`json.Unmarshal` of the file contents into a fresh `Plan{}`. -/
def ReadPlan (w : WirePlan) : Plan :=
  { Placement := w.Placement.map unmarshalNode, MemQuota := w.MemQuota,
    CpuQuota := w.CpuQuota, IsLive := w.IsLive }

/-- Index used by the C8 counterexample: carries an `initialNode`
pointer. -/
def c8index : IndexUsage :=
  { Name := "i1", initialNode := some { NodeId := "n1", NodeUUID := "u1" } }

/-- Node used by the C8 counterexample: flagged `delete`, hosting
`c8index`. -/
def c8node : IndexerNode :=
  { NodeId := "n1", NodeUUID := "u1", Indexes := [c8index], delete := true }

/-- Plan used by the C8 counterexample. -/
def c8plan : Plan :=
  { Placement := [c8node], MemQuota := 5, CpuQuota := 2, IsLive := true }

/-- C8 counterexample: the savePlan/ReadPlan round trip is NOT the
identity field-wise on every Plan.  Go encoding/json serializes only
exported fields, so the unexported `IndexerNode.delete` flag and
`IndexUsage.initialNode` pointer come back as zero values: on `c8plan`
(delete = true, initialNode set) the round trip differs from the
original. -/
theorem c8_plan_roundtrip_counterexample :
    ReadPlan (savePlan c8plan) ≠ c8plan := by
  decide

theorem index_roundtrip (i : IndexUsage) :
    unmarshalIndex (marshalIndex i) = { i with initialNode := none } := rfl

theorem node_roundtrip (n : IndexerNode) :
    unmarshalNode (marshalNode n) =
      { n with
        delete := false
        Indexes := n.Indexes.map (fun i => { i with initialNode := none }) } := by
  simp only [unmarshalNode, marshalNode, List.map_map]
  have hco : (unmarshalIndex ∘ marshalIndex) =
      (fun i : IndexUsage => { i with initialNode := none }) :=
    funext (fun i => rfl)
  rw [hco]

/-- C8 (amended): the savePlan/ReadPlan round trip restores every
exported field, and is the identity exactly on plans whose unexported
fields already hold their zero values — every node's `delete` flag
false and every index's `initialNode` nil; those two fields are not
serialized and come back zeroed. -/
theorem c8_plan_roundtrip_amended (p : Plan)
    (h1 : ∀ n ∈ p.Placement, n.delete = false)
    (h2 : ∀ n ∈ p.Placement, ∀ i ∈ n.Indexes, i.initialNode = none) :
    ReadPlan (savePlan p) = p := by
  have hmap : p.Placement.map (fun n => unmarshalNode (marshalNode n)) =
      p.Placement := by
    conv_rhs => rw [← List.map_id p.Placement]
    apply List.map_congr_left
    intro n hn
    rw [node_roundtrip]
    have hni : n.Indexes.map
        (fun i : IndexUsage => { i with initialNode := none }) = n.Indexes := by
      conv_rhs => rw [← List.map_id n.Indexes]
      apply List.map_congr_left
      intro i hi
      have hz := h2 n hn i hi
      cases i
      simp_all
    have hd := h1 n hn
    cases n
    simp_all
  calc ReadPlan (savePlan p)
      = { Placement := p.Placement.map (fun n => unmarshalNode (marshalNode n)),
          MemQuota := p.MemQuota, CpuQuota := p.CpuQuota,
          IsLive := p.IsLive } := by
        simp [ReadPlan, savePlan, List.map_map, Function.comp]
    _ = p := by rw [hmap]

/-- Node used by the C8 witness: no `delete` flag, no `initialNode`
pointer. -/
def c8node2 : IndexerNode :=
  { NodeId := "n1", NodeUUID := "u1",
    Indexes := [ { Name := "i1", NumOfDocs := 3 } ] }

/-- Plan used by the C8 witness. -/
def c8plan2 : Plan :=
  { Placement := [c8node2], MemQuota := 5, CpuQuota := 2, IsLive := true }

/-- Witness for the amended C8: on a plan with zeroed unexported
fields the round trip is the identity. -/
theorem c8_plan_roundtrip_amended_witness :
    ReadPlan (savePlan c8plan2) = c8plan2 :=
  c8_plan_roundtrip_amended c8plan2 (by decide) (by decide)
